import Mathlib

/-!
Verification of the publish pipeline implemented in `src/app.py`.

Strings are embedded as `List Char` (Python `str`), byte strings as
`List Nat` with values below 256.  Side effects (HTTP calls, file
writes, git operations, sleeps) are embedded as an explicit trace of
`Effect` values; the responses of the external world (GitHub API,
generation service, published site) are supplied by an `Env` record,
so every function of the source becomes a pure function from its
arguments and the environment to a trace and an `Except` result.
-/

deriving instance DecidableEq for Except

namespace AppModel

/-- The backtick character (code point 96). -/
def btick : Char := Char.ofNat 96

/-- Markdown code-fence marker, three backticks (the Python literal
spelled with three backtick characters at `src/app.py:50-52`). -/
def fence : List Char := [btick, btick, btick]

/-- Whitespace characters stripped by Python `str.strip()` (ASCII range). -/
def isPySpace (c : Char) : Bool :=
  c = ' ' || c = '\t' || c = '\n' || c = '\r' || c = '\x0b' || c = '\x0c'

/-- Python `s.split(sep)` for a single-character separator: the list of
maximal separator-free pieces; `"".split(sep) = [""]`. -/
def splitOnChar (sep : Char) : List Char → List (List Char)
  | [] => [[]]
  | c :: rest =>
    if c = sep then [] :: splitOnChar sep rest
    else
      match splitOnChar sep rest with
      | [] => [[c]]
      | l :: ls => (c :: l) :: ls

/-- Python `code.split("\n")`. -/
def splitLines (s : List Char) : List (List Char) := splitOnChar '\n' s

/-- Python `"\n".join(lines)`. -/
def joinLines (ls : List (List Char)) : List Char := List.intercalate ['\n'] ls

/-- Python `s.strip()`: remove leading and trailing whitespace. -/
def pyStrip (s : List Char) : List Char :=
  ((s.dropWhile isPySpace).reverse.dropWhile isPySpace).reverse

/-- Python `s.split(sep, 1)` when the separator occurs (the source
destructures the result into two pieces, so the no-separator case is a
`ValueError`, embedded as `none`). -/
def splitOnceChar (sep : Char) : List Char → Option (List Char × List Char)
  | [] => none
  | c :: rest =>
    if c = sep then some ([], rest)
    else (splitOnceChar sep rest).map (fun pr => (c :: pr.1, pr.2))

/-- `os.path.join(a, b)` for POSIX paths as used at `src/app.py:76,82,91`:
an absolute second component replaces the first, otherwise the two are
joined with a single `/` (no sanitization of `..` segments). -/
def pyJoin (a b : List Char) : List Char :=
  match b with
  | '/' :: _ => b
  | _ =>
    match a.getLast? with
    | none => b
    | some '/' => a ++ b
    | some _ => a ++ '/' :: b

/-- `os.path.normpath` for absolute POSIX paths: resolve `.` and `..`
segments and duplicate slashes (used only to interpret where a written
path actually lands). -/
def posixNormAbs (p : List Char) : List Char :=
  let segs := (splitOnChar '/' p).filter (fun s => !(s == []) && !(s == ['.']))
  let final := segs.foldl
    (fun acc s => if s == ['.', '.'] then acc.dropLast else acc ++ [s])
    ([] : List (List Char))
  '/' :: List.intercalate ['/'] final

/-- Decimal rendering of a natural number, Python `str(n)` / f-string
interpolation of an `int`. -/
def natToStr (n : Nat) : List Char := (toString n).data

/-- `urlparse(url).scheme`: the lowercased part before the first `:`
when it is a well-formed scheme (letter first, then letters, digits,
`+`, `-`, `.`), otherwise the empty string. -/
def isSchemeChar (c : Char) : Bool := c.isAlphanum || c = '+' || c = '-' || c = '.'

/-- See `isSchemeChar`; models `urllib.parse.urlparse(att.url).scheme`. -/
def schemeOf (url : List Char) : List Char :=
  match splitOnceChar ':' url with
  | none => []
  | some (pre, _) =>
    match pre with
    | [] => []
    | c :: _ => if c.isAlpha && pre.all isSchemeChar then pre.map Char.toLower else []

/-- The base64 alphabet in index order. -/
def b64table : List Char :=
  "ABCDEFGHIJKLMNOPQRSTUVWXYZabcdefghijklmnopqrstuvwxyz0123456789+/".data

/-- Character for a sextet value. -/
def b64chars (n : Nat) : Char := b64table.getD n 'A'

/-- Sextet value of an alphabet character, `none` off the alphabet. -/
def b64index (c : Char) : Option Nat := b64table.indexOf? c

/-- Standard base64 encoding of a byte string (`base64.b64encode`),
with `=` padding. -/
def b64encode : List Nat → List Char
  | [] => []
  | [a] => [b64chars (a / 4), b64chars (a % 4 * 16), '=', '=']
  | [a, b] => [b64chars (a / 4), b64chars (a % 4 * 16 + b / 16), b64chars (b % 16 * 4), '=']
  | a :: b :: c :: rest =>
    b64chars (a / 4) :: b64chars (a % 4 * 16 + b / 16) ::
    b64chars (b % 16 * 4 + c / 64) :: b64chars (c % 64) :: b64encode rest

/-- `base64.b64decode` on canonical base64 text: groups of four alphabet
characters become three bytes, a final group may carry one or two `=`
padding characters; any malformed input is an error (`none`).  (CPython
is additionally lenient about junk characters, a case the source never
relies on.)  This is the decoding `src/app.py:77` intends to perform;
the call never actually runs there because the name `base64` is unbound
in `save_attachments` — see that definition. -/
def b64decodePy : List Char → Option (List Nat)
  | [] => some []
  | c1 :: c2 :: c3 :: c4 :: rest =>
    match b64index c1, b64index c2 with
    | some s1, some s2 =>
      if c3 = '=' then
        if c4 = '=' then
          if rest = [] then some [s1 * 4 + s2 / 16] else none
        else none
      else
        match b64index c3 with
        | some s3 =>
          if c4 = '=' then
            if rest = [] then some [s1 * 4 + s2 / 16, s2 % 16 * 16 + s3 / 4] else none
          else
            match b64index c4 with
            | some s4 =>
              (b64decodePy rest).map
                (fun bs => (s1 * 4 + s2 / 16) :: (s2 % 16 * 16 + s3 / 4) :: (s3 % 4 * 64 + s4) :: bs)
            | none => none
        | none => none
    | _, _ => none
  | _ => none

/-- `class Attachment(BaseModel)` (`src/app.py:23-25`). -/
structure Attachment where
  name : List Char
  url : List Char
deriving DecidableEq

/-- `class TaskRequest(BaseModel)` (`src/app.py:27-35`); `evaluation_url`
defaults to `None`, embedded as `Option`. -/
structure TaskRequest where
  secret : List Char
  email : List Char
  task : List Char
  nonce : List Char
  brief : List Char
  round : Nat := 1
  evaluation_url : Option (List Char) := none
  attachments : List Attachment := []

/-- Process configuration read from the environment at startup
(`src/app.py:15-18`) plus `tempfile.gettempdir()`. -/
structure Config where
  username : List Char
  token : List Char
  secret : List Char
  tmpdir : List Char

/-- The JSON payload of the callback POST (`src/app.py:177-185`). -/
structure EvalData where
  email : List Char
  task : List Char
  round : Nat
  nonce : List Char
  repo_url : List Char
  commit_sha : List Char
  pages_url : List Char
deriving DecidableEq

/-- One observable side effect of the pipeline, one constructor per
call site in `src/app.py`. -/
inductive Effect where
  /-- `client.models.generate_content` (`src/app.py:45`). -/
  | llmGenerate (prompt : List Char)
  /-- `requests.get` existence check (`src/app.py:60`). -/
  | repoExistsGet (url : List Char)
  /-- `requests.post(".../user/repos")` creating the repo (`src/app.py:64`). -/
  | repoCreatePost (name : List Char)
  /-- `os.makedirs` (`src/app.py:83`). -/
  | makeDirs (path : List Char)
  /-- entering `with open(..., "wb")` for an attachment (`src/app.py:76`):
  the file is created or truncated; no bytes follow, because evaluating
  `base64.b64decode` on the next line raises `NameError` (see
  `save_attachments`). -/
  | openTruncate (path : List Char)
  /-- text file write (`src/app.py:91-123`). -/
  | writeText (path : List Char) (data : List Char)
  /-- `Repo.init` (`src/app.py:127`). -/
  | gitInit (path : List Char)
  /-- `repo.git.add(A=True)` (`src/app.py:131`). -/
  | gitAdd
  /-- `repo.index.commit` (`src/app.py:132`). -/
  | gitCommit (msg : List Char)
  /-- `repo.git.branch("-M", "main")` (`src/app.py:133`). -/
  | gitBranchMain
  /-- `repo.create_remote("origin", url)` (`src/app.py:137`). -/
  | gitCreateRemote (url : List Char)
  /-- `repo.remotes.origin.set_url(url)` (`src/app.py:139`). -/
  | gitSetRemoteUrl (url : List Char)
  /-- `repo.remotes.origin.push("main", force=True)` (`src/app.py:141`). -/
  | gitPushForce (branch : List Char)
  /-- `requests.post(pages_api_url, ...)` (`src/app.py:147`). -/
  | pagesPost (url : List Char)
  /-- `requests.put(pages_api_url, ...)` retry (`src/app.py:149`). -/
  | pagesPut (url : List Char)
  /-- liveness probe `requests.get(live_url)` (`src/app.py:155`). -/
  | probe (url : List Char)
  /-- `time.sleep(n)` (`src/app.py:158`). -/
  | sleep (n : Nat)
  /-- callback `requests.post(evaluation_url, ...)` (`src/app.py:168`). -/
  | callbackPost (url : List Char) (data : EvalData)
  /-- the `print` in the callback exception handler (`src/app.py:170`). -/
  | printLog
deriving DecidableEq

/-- Responses of the external world consumed by one request: HTTP status
codes returned by GitHub and the published site, the generation-service
response text, the local filesystem/git state found on disk, and the
commit hash produced by git. -/
structure Env where
  /-- text of the generation-service response (`response.text`). -/
  llmResponse : List Char
  /-- status of the repository existence check `GET`. -/
  repoGetStatus : Nat
  /-- status of the repository creation `POST`. -/
  repoCreateStatus : Nat
  /-- whether `LICENSE` already exists in the staging directory. -/
  licenseExists : Bool
  /-- whether `.git` already exists in the staging directory. -/
  gitDirExists : Bool
  /-- whether remote `origin` is already configured. -/
  originExists : Bool
  /-- status of the Pages activation `POST`. -/
  pagesPostStatus : Nat
  /-- status of the Pages activation retry `PUT`. -/
  pagesPutStatus : Nat
  /-- status of the i-th liveness probe `GET`. -/
  liveStatus : Nat → Nat
  /-- `repo.head.commit.hexsha` after the commit. -/
  commitSha : List Char
  /-- `datetime.now().year`. -/
  year : Nat
  /-- outcome of the callback delivery `requests.post` (`.error` models a
  raised exception such as an unreachable host). -/
  callbackOutcome : Except Unit Unit

/-- `requests.Response.raise_for_status()`: raises exactly on a 4xx or
5xx status code. -/
def raiseForStatus (status : Nat) : Except Unit Unit :=
  if 400 ≤ status ∧ status < 600 then .error () else .ok ()

/-- The JSON body returned by the endpoint: `{"status": "ok"}` or
`{"status": "error", "message": ...}` (`src/app.py:192,198`). -/
inductive Resp where
  | ok
  | error (message : List Char)
deriving DecidableEq

/-- The instruction prompt built by `call_llm` (`src/app.py:39-44`). -/
def promptFor (brief : List Char) : List Char :=
  ("You are a code generator. Return only a single HTML/JS/CSS code block for the app requested. Do NOT add any explanations, comments, or extra text.\n\nTask brief: ").data
  ++ brief ++ ("\nReturn ONLY the code block, nothing else.").data

/-- Post-processing of the generation-service response
(`src/app.py:49-54`): if it starts with a fence marker drop the first
line, if it then ends with a fence marker drop the last line, and strip
surrounding whitespace. -/
def stripFenceMarkers (code : List Char) : List Char :=
  let code1 := if fence <+: code then joinLines (splitLines code).tail else code
  let code2 := if fence <:+ code1 then joinLines (splitLines code1).dropLast else code1
  pyStrip code2

/-- `call_llm` (`src/app.py:38-54`) with the remote generation call
abstracted by `env.llmResponse`. -/
def call_llm (env : Env) (brief : List Char) : List Effect × List Char :=
  ([Effect.llmGenerate (promptFor brief)], stripFenceMarkers env.llmResponse)

/-- URL of the repository existence check (`src/app.py:59`). -/
def apiRepoGetUrl (cfg : Config) (repo_name : List Char) : List Char :=
  ("https://api.github.com/repos/").data ++ cfg.username ++ '/' :: repo_name

/-- `ensure_repo_exists` (`src/app.py:57-68`): `GET` the repository; on
404, `POST` a creation request and raise on its error status; on any
other 4xx/5xx status of the `GET`, raise. -/
def ensure_repo_exists (cfg : Config) (env : Env) (repo_name : List Char) :
    List Effect × Except Unit Unit :=
  if env.repoGetStatus = 404 then
    ([Effect.repoExistsGet (apiRepoGetUrl cfg repo_name), Effect.repoCreatePost repo_name],
     raiseForStatus env.repoCreateStatus)
  else if 400 ≤ env.repoGetStatus then
    ([Effect.repoExistsGet (apiRepoGetUrl cfg repo_name)], raiseForStatus env.repoGetStatus)
  else
    ([Effect.repoExistsGet (apiRepoGetUrl cfg repo_name)], Except.ok ())

/-- `save_attachments` (`src/app.py:70-77`): for each attachment whose
parsed scheme starts with `"data"`, split the URL at the first comma
(a missing comma makes the two-name unpacking raise `ValueError`), then
open `os.path.join(local_dir, att.name)` for writing — creating or
truncating that file — and evaluate `base64.b64decode(data)`.  The name
`base64` is unbound in this function: the only `import base64` in the
module is local to the body of `create_or_update_repo`
(`src/app.py:87`), and there is no top-level import, so line 77 raises
`NameError` before any bytes are written and the loop aborts.
Attachments with any other scheme are skipped (the loop has no `else`
branch). -/
def save_attachments (local_dir : List Char) : List Attachment → List Effect × Except Unit Unit
  | [] => ([], Except.ok ())
  | att :: rest =>
    if ("data").data <+: schemeOf att.url then
      match splitOnceChar ',' att.url with
      | none => ([], Except.error ())
      | some _ => ([Effect.openTruncate (pyJoin local_dir att.name)], Except.error ())
    else save_attachments local_dir rest

/-- The `LICENSE` body written at `src/app.py:98-119` (an f-string
interpolating the current year and the account name). -/
def licenseText (cfg : Config) (year : Nat) : List Char :=
  ("MIT License\n\nCopyright (c) ").data ++ natToStr year ++ (" ").data ++ cfg.username ++
  ("\n\nPermission is hereby granted, free of charge, to any person obtaining a copy\nof this software and associated documentation files (the \"Software\"), to deal\nin the Software without restriction, including without limitation the rights\nto use, copy, modify, merge, publish, distribute, sublicense, and/or sell\ncopies of the Software, and to permit persons to whom the Software is\nfurnished to do so, subject to the following conditions:\n\nThe above copyright notice and this permission notice shall be included in\nall copies or substantial portions of the Software.\n\nTHE SOFTWARE IS PROVIDED \"AS IS\", WITHOUT WARRANTY OF ANY KIND, EXPRESS OR\nIMPLIED, INCLUDING BUT NOT LIMITED TO THE WARRANTIES OF MERCHANTABILITY,\nFITNESS FOR A PARTICULAR PURPOSE AND NONINFRINGEMENT. IN NO EVENT SHALL THE\nAUTHORS OR COPYRIGHT HOLDERS BE LIABLE FOR ANY CLAIM, DAMAGES OR OTHER\nLIABILITY, WHETHER IN AN ACTION OF CONTRACT, TORT OR OTHERWISE, ARISING FROM,\nOUT OF OR IN CONNECTION WITH THE SOFTWARE OR THE USE OR OTHER DEALINGS IN\nTHE SOFTWARE.\n").data

/-- The `README.md` body written at `src/app.py:123`, with the first
500 characters of the generated markup. -/
def readmeText (task_id : List Char) (round_number : Nat) (html_code : List Char) : List Char :=
  ("# ").data ++ task_id ++ ("\n\nGenerated for round ").data ++ natToStr round_number ++
  ("\n\nBrief:\n").data ++ html_code.take 500 ++ ("...\n\n## License\nMIT").data

/-- Commit message `f"Round {round_number} update"` (`src/app.py:132`). -/
def commitMsg (round_number : Nat) : List Char :=
  ("Round ").data ++ natToStr round_number ++ (" update").data

/-- GitHub Pages API URL (`src/app.py:144`). -/
def pagesApiUrl (cfg : Config) (repo_name : List Char) : List Char :=
  ("https://api.github.com/repos/").data ++ cfg.username ++ ("/").data ++ repo_name ++ ("/pages").data

/-- Embedded-credential push URL (`src/app.py:135`). -/
def remoteUrlOf (cfg : Config) (repo_name : List Char) : List Char :=
  ("https://").data ++ cfg.username ++ (":").data ++ cfg.token ++ ("@github.com/").data ++
  cfg.username ++ ("/").data ++ repo_name ++ (".git").data

/-- Public site URL (`src/app.py:153`). -/
def liveUrlOf (cfg : Config) (repo_name : List Char) : List Char :=
  ("https://").data ++ cfg.username ++ (".github.io/").data ++ repo_name ++ ("/").data

/-- Repository web URL (`src/app.py:161`). -/
def repoUrlOf (cfg : Config) (repo_name : List Char) : List Char :=
  ("https://github.com/").data ++ cfg.username ++ ("/").data ++ repo_name

/-- Pages activation (`src/app.py:147-150`): `POST`; if the status is
not in `[201, 204]`, `PUT` the same payload and raise on the `PUT`'s
error status. -/
def enable_pages (cfg : Config) (env : Env) (repo_name : List Char) :
    List Effect × Except Unit Unit :=
  let url := pagesApiUrl cfg repo_name
  if env.pagesPostStatus ∉ ([201, 204] : List Nat) then
    ([Effect.pagesPost url, Effect.pagesPut url], raiseForStatus env.pagesPutStatus)
  else
    ([Effect.pagesPost url], Except.ok ())

/-- The liveness-poll loop (`src/app.py:154-158`): up to `fuel` probes
of `url` starting at attempt index `i`; stop at the first 200 response,
otherwise sleep 3 units and continue. -/
def pollLive (status : Nat → Nat) (url : List Char) : Nat → Nat → List Effect
  | 0, _ => []
  | fuel + 1, i =>
    if status i = 200 then [Effect.probe url]
    else Effect.probe url :: Effect.sleep 3 :: pollLive status url fuel (i + 1)

/-- `create_or_update_repo` (`src/app.py:79-162`): ensure the repository
exists, materialize attachments, write `index.html` / `LICENSE` /
`README.md`, commit, force-push `main`, activate Pages, poll the public
URL, and return `(repo_url, live_url, commit_sha)`. -/
def create_or_update_repo (cfg : Config) (env : Env) (task_id html_code : List Char)
    (round_number : Nat) (attachments : List Attachment) :
    List Effect × Except Unit (List Char × List Char × List Char) :=
  let repo_name := task_id
  match ensure_repo_exists cfg env repo_name with
  | (e1, Except.error e) => (e1, Except.error e)
  | (e1, Except.ok _) =>
    let local_dir := pyJoin cfg.tmpdir repo_name
    let e2 := [Effect.makeDirs local_dir]
    match (if attachments ≠ [] then save_attachments local_dir attachments
           else ([], Except.ok ())) with
    | (e3, Except.error e) => (e1 ++ e2 ++ e3, Except.error e)
    | (e3, Except.ok _) =>
      let e4 := [Effect.writeText (pyJoin local_dir ("index.html").data) html_code]
      let e5 := if env.licenseExists then []
                else [Effect.writeText (pyJoin local_dir ("LICENSE").data) (licenseText cfg env.year)]
      let e6 := [Effect.writeText (pyJoin local_dir ("README.md").data)
                   (readmeText task_id round_number html_code)]
      let e7 := (if env.gitDirExists then [] else [Effect.gitInit local_dir])
        ++ [Effect.gitAdd, Effect.gitCommit (commitMsg round_number), Effect.gitBranchMain]
        ++ [if env.originExists then Effect.gitSetRemoteUrl (remoteUrlOf cfg repo_name)
            else Effect.gitCreateRemote (remoteUrlOf cfg repo_name)]
        ++ [Effect.gitPushForce ("main").data]
      match enable_pages cfg env repo_name with
      | (e8, Except.error e) => (e1 ++ e2 ++ e3 ++ e4 ++ e5 ++ e6 ++ e7 ++ e8, Except.error e)
      | (e8, Except.ok _) =>
        let live_url := liveUrlOf cfg repo_name
        let e9 := pollLive env.liveStatus live_url 20 0
        (e1 ++ e2 ++ e3 ++ e4 ++ e5 ++ e6 ++ e7 ++ e8 ++ e9,
         Except.ok (repoUrlOf cfg repo_name, live_url, env.commitSha))

/-- `post_to_evaluation` (`src/app.py:165-170`): if a truthy callback
URL was supplied, POST the payload inside `try/except`, printing and
discarding any failure; never raises. -/
def post_to_evaluation (data : EvalData) (evaluation_url : Option (List Char))
    (outcome : Except Unit Unit) : List Effect × Except Unit Unit :=
  match evaluation_url with
  | none => ([], Except.ok ())
  | some u =>
    if u = [] then ([], Except.ok ())
    else
      match outcome with
      | Except.ok _ => ([Effect.callbackPost u data], Except.ok ())
      | Except.error _ => ([Effect.callbackPost u data, Effect.printLog], Except.ok ())

/-- `process_task` (`src/app.py:173-186`): generate the markup, publish
it, then deliver the callback. -/
def process_task (cfg : Config) (env : Env) (payload : TaskRequest) :
    List Effect × Except Unit Unit :=
  let c := call_llm env payload.brief
  match create_or_update_repo cfg env payload.task c.2 payload.round payload.attachments with
  | (e1, Except.error e) => (c.1 ++ e1, Except.error e)
  | (e1, Except.ok (repo_url, pages_url, commit_sha)) =>
    let eval_data : EvalData :=
      ⟨payload.email, payload.task, payload.round, payload.nonce, repo_url, commit_sha, pages_url⟩
    let p := post_to_evaluation eval_data payload.evaluation_url env.callbackOutcome
    (c.1 ++ e1 ++ p.1, p.2)

/-- `handle_request` (`src/app.py:189-198`): reject a mismatched secret
with a synchronous error payload and no enqueued work; otherwise enqueue
`process_task` (its deferred trace is the second component) and return
`{"status": "ok"}` immediately. -/
def handle_request (cfg : Config) (env : Env) (payload : TaskRequest) : Resp × List Effect :=
  if payload.secret ≠ cfg.secret then (Resp.error ("Invalid secret").data, [])
  else (Resp.ok, (process_task cfg env payload).1)

/-- Recognizes the repository-creation `POST` in a trace. -/
def isRepoCreate : Effect → Bool
  | Effect.repoCreatePost _ => true
  | _ => false

/-- Recognizes a liveness probe in a trace. -/
def isProbe : Effect → Bool
  | Effect.probe _ => true
  | _ => false

/-- The lines of a fenced response strictly between the opening and the
closing fence line. -/
def interiorLines (code : List Char) : List (List Char) :=
  ((splitLines code).tail).dropLast

/-- Concrete configuration used by the closed witness statements. -/
def cfgW : Config := ⟨("alice").data, ("tok").data, ("s3cret").data, ("/tmp").data⟩

/-- Concrete environment used by the closed witness statements. -/
def envW : Env where
  llmResponse := ("<p>hi</p>").data
  repoGetStatus := 200
  repoCreateStatus := 201
  licenseExists := true
  gitDirExists := true
  originExists := true
  pagesPostStatus := 201
  pagesPutStatus := 200
  liveStatus := fun _ => 200
  commitSha := ("abc123").data
  year := 2025
  callbackOutcome := Except.ok ()

/-- Concrete request used by the closed witness statements. -/
def payW : TaskRequest where
  secret := ("s3cret").data
  email := ("a@b.c").data
  task := ("demo-42").data
  nonce := ("n1").data
  brief := ("a countdown timer").data

/-- C1: a request whose secret differs from the configured shared secret
gets the structured error payload synchronously, and nothing is enqueued:
the deferred trace is empty, so no generation call, no repository
mutation and no callback delivery ever happens for it. -/
theorem secret_mismatch_rejected (cfg : Config) (env : Env) (payload : TaskRequest)
    (h : payload.secret ≠ cfg.secret) :
    handle_request cfg env payload = (Resp.error ("Invalid secret").data, []) := by
  simp [handle_request, h]

/-- Witness for `secret_mismatch_rejected` at a concrete mismatched request. -/
theorem secret_mismatch_rejected_witness :
    handle_request cfgW envW { payW with secret := ("bad").data } =
      (Resp.error ("Invalid secret").data, []) :=
  secret_mismatch_rejected cfgW envW { payW with secret := ("bad").data } (by decide)

/-- C6: an authorized request enqueues exactly the pipeline
(`process_task`) for deferred execution and returns the bare `ok`
acknowledgment (the `Resp.ok` constructor carries no result data);
the environment `env` — and with it every downstream outcome — is
universally quantified, so the acknowledgment does not depend on it. -/
theorem authorized_deferred_ack (cfg : Config) (env : Env) (payload : TaskRequest)
    (h : payload.secret = cfg.secret) :
    (handle_request cfg env payload).1 = Resp.ok ∧
    (handle_request cfg env payload).2 = (process_task cfg env payload).1 := by
  simp [handle_request, h]

/-- Witness for `authorized_deferred_ack` at a concrete authorized request. -/
theorem authorized_deferred_ack_witness :
    (handle_request cfgW envW payW).1 = Resp.ok ∧
    (handle_request cfgW envW payW).2 = (process_task cfgW envW payW).1 :=
  authorized_deferred_ack cfgW envW payW (by decide)

/-- C9: the callback step never raises — whatever the delivery outcome
(including a raised network error), its result is `ok`; with no callback
URL (or an empty one) no callback post happens; and the handler's primary
acknowledgment is the same whatever the callback outcome is. -/
theorem callback_swallows_failures (data : EvalData) (url : Option (List Char))
    (outcome : Except Unit Unit) (cfg : Config) (env : Env) (payload : TaskRequest)
    (o₁ o₂ : Except Unit Unit) :
    (post_to_evaluation data url outcome).2 = Except.ok () ∧
    (url = none → (post_to_evaluation data url outcome).1 = []) ∧
    (handle_request cfg { env with callbackOutcome := o₁ } payload).1 =
      (handle_request cfg { env with callbackOutcome := o₂ } payload).1 := by
  refine ⟨?_, ?_, ?_⟩
  · cases url with
    | none => rfl
    | some u =>
      by_cases h : u = [] <;> cases outcome <;> simp [post_to_evaluation, h]
  · rintro rfl; rfl
  · by_cases h : payload.secret = cfg.secret <;> simp [handle_request, h]

/-- Witness for `callback_swallows_failures`: a failing delivery to a
supplied URL is swallowed, and an absent URL posts nothing. -/
theorem callback_swallows_failures_witness :
    (post_to_evaluation
        ⟨("a@b.c").data, ("demo-42").data, 1, ("n1").data, [], [], []⟩
        (some (("http://cb.example/x").data)) (Except.error ())).2 = Except.ok () ∧
    (post_to_evaluation
        ⟨("a@b.c").data, ("demo-42").data, 1, ("n1").data, [], [], []⟩
        none (Except.error ())).1 = [] :=
  ⟨(callback_swallows_failures _ (some (("http://cb.example/x").data)) (Except.error ())
      cfgW envW payW (Except.ok ()) (Except.ok ())).1,
   (callback_swallows_failures
      ⟨("a@b.c").data, ("demo-42").data, 1, ("n1").data, [], [], []⟩
      none (Except.error ()) cfgW envW payW (Except.ok ()) (Except.ok ())).2.1 rfl⟩

/-- C5 counterexample: the claim says a non-inline-data attachment is
fetched via HTTP GET and written to the staging directory; on this
concrete `https` attachment the materializer emits no effect at all —
no fetch and no write (the loop body has no `else` branch,
`src/app.py:73`). -/
theorem nondata_attachment_cex :
    save_attachments ("/tmp/demo").data
      [⟨("img.png").data, ("https://example.com/img.png").data⟩] =
      ([], Except.ok ()) := by decide

/-- C5 amended: an attachment whose source locator does not use an
inline-data scheme is skipped entirely — processing it leaves the
trace and the result exactly those of the remaining attachments. -/
theorem nondata_attachment_skipped (dir : List Char) (att : Attachment)
    (rest : List Attachment) (h : ¬ ("data").data <+: schemeOf att.url) :
    save_attachments dir (att :: rest) = save_attachments dir rest := by
  simp [save_attachments, h]

/-- Witness for `nondata_attachment_skipped` at a concrete `https` attachment. -/
theorem nondata_attachment_skipped_witness :
    save_attachments ("/tmp/demo").data
      [⟨("img.png").data, ("https://example.com/img.png").data⟩] =
      save_attachments ("/tmp/demo").data [] :=
  nondata_attachment_skipped ("/tmp/demo").data
    ⟨("img.png").data, ("https://example.com/img.png").data⟩ [] (by decide)

/-- C7 counterexample: the claim says only a conflict/already-exists-like
failure of the Pages activation `POST` triggers the `PUT` retry, and any
other failure is propagated without it; on a concrete 500 response the
code retries with `PUT` anyway, and (the `PUT` succeeding) propagates no
failure. -/
theorem pages_retry_cex :
    enable_pages cfgW { envW with pagesPostStatus := 500, pagesPutStatus := 200 }
        ("demo-42").data =
      ([Effect.pagesPost (pagesApiUrl cfgW ("demo-42").data),
        Effect.pagesPut (pagesApiUrl cfgW ("demo-42").data)], Except.ok ()) := by decide

/-- C7 amended: any Pages-activation `POST` status other than the
success statuses 201/204 — conflict-like or not — triggers exactly one
`PUT` retry, and the request fails exactly when the `PUT`'s status is an
error status; a 201/204 `POST` triggers no retry. -/
theorem pages_retry_policy (cfg : Config) (env : Env) (repo_name : List Char) :
    (env.pagesPostStatus = 201 ∨ env.pagesPostStatus = 204 →
      enable_pages cfg env repo_name =
        ([Effect.pagesPost (pagesApiUrl cfg repo_name)], Except.ok ())) ∧
    (env.pagesPostStatus ≠ 201 → env.pagesPostStatus ≠ 204 →
      enable_pages cfg env repo_name =
        ([Effect.pagesPost (pagesApiUrl cfg repo_name),
          Effect.pagesPut (pagesApiUrl cfg repo_name)],
         raiseForStatus env.pagesPutStatus)) := by
  constructor
  · intro h
    rcases h with h | h <;> simp [enable_pages, h]
  · intro h₁ h₂
    simp [enable_pages, h₁, h₂]

/-- Witness for `pages_retry_policy` at a 201 and at a 500 `POST` status. -/
theorem pages_retry_policy_witness :
    enable_pages cfgW envW ("demo-42").data =
      ([Effect.pagesPost (pagesApiUrl cfgW ("demo-42").data)], Except.ok ()) ∧
    enable_pages cfgW { envW with pagesPostStatus := 500, pagesPutStatus := 409 }
        ("demo-42").data =
      ([Effect.pagesPost (pagesApiUrl cfgW ("demo-42").data),
        Effect.pagesPut (pagesApiUrl cfgW ("demo-42").data)],
       raiseForStatus 409) :=
  ⟨(pages_retry_policy cfgW envW ("demo-42").data).1 (Or.inl rfl),
   (pages_retry_policy cfgW { envW with pagesPostStatus := 500, pagesPutStatus := 409 }
      ("demo-42").data).2 (by decide) (by decide)⟩

/-- Looking up the encoding character of a sextet finds the sextet back. -/
lemma b64index_b64chars : ∀ s, s < 64 → b64index (b64chars s) = some s := by decide

/-- No alphabet character is the padding character. -/
lemma b64chars_ne_pad : ∀ s, s < 64 → b64chars s ≠ '=' := by decide

/-- Base64 decoding inverts encoding on byte strings. -/
theorem b64_roundtrip : ∀ (p : List Nat), (∀ b ∈ p, b < 256) →
    b64decodePy (b64encode p) = some p
  | [], _ => rfl
  | [a], h => by
    have ha : a < 256 := h a (by simp)
    have h₁ : a / 4 < 64 := by omega
    have h₂ : a % 4 * 16 < 64 := by omega
    simp only [b64encode, b64decodePy, b64index_b64chars _ h₁, b64index_b64chars _ h₂]
    simp
    omega
  | [a, b], h => by
    have ha : a < 256 := h a (by simp)
    have hb : b < 256 := h b (by simp)
    have h₁ : a / 4 < 64 := by omega
    have h₂ : a % 4 * 16 + b / 16 < 64 := by omega
    have h₃ : b % 16 * 4 < 64 := by omega
    simp only [b64encode, b64decodePy, b64index_b64chars _ h₁, b64index_b64chars _ h₂,
      b64index_b64chars _ h₃]
    rw [if_neg (b64chars_ne_pad _ h₃)]
    simp
    omega
  | a :: b :: c :: rest, h => by
    have ha : a < 256 := h a (by simp)
    have hb : b < 256 := h b (by simp)
    have hc : c < 256 := h c (by simp)
    have ih := b64_roundtrip rest (fun x hx => h x (by simp [hx]))
    have h₁ : a / 4 < 64 := by omega
    have h₂ : a % 4 * 16 + b / 16 < 64 := by omega
    have h₃ : b % 16 * 4 + c / 64 < 64 := by omega
    have h₄ : c % 64 < 64 := by omega
    simp only [b64encode, b64decodePy, b64index_b64chars _ h₁, b64index_b64chars _ h₂,
      b64index_b64chars _ h₃, b64index_b64chars _ h₄]
    rw [if_neg (b64chars_ne_pad _ h₃), if_neg (b64chars_ne_pad _ h₄)]
    rw [ih]
    simp
    omega

/-- C4: the decoding round-trips as the claim says (`b64_roundtrip`,
instantiated here at the payload `[72, 105]`), but the code never
performs it: on this inline base64 attachment the materializer creates
and truncates the destination file and then aborts with `NameError`,
because `base64` is unbound in `save_attachments` — its only import
(`src/app.py:87`) is local to `create_or_update_repo`.  The decoded
bytes are never written, contradicting the claim; the import placement
is plainly a slip, so the code, not the claim, is wrong. -/
theorem inline_attachment_import_bug :
    b64decodePy (b64encode [72, 105]) = some [72, 105] ∧
    save_attachments ("/tmp/demo").data
      [⟨("a.bin").data, ("data:text/plain;base64,").data ++ b64encode [72, 105]⟩] =
      ([Effect.openTruncate (("/tmp/demo/a.bin").data)], Except.error ()) := by decide

/-- Every file the materializer opens for writing sits at the raw,
unsanitized join of the staging directory with the caller-supplied
attachment name. -/
lemma save_attachments_open_path :
    ∀ (atts : List Attachment) (dir path : List Char),
    Effect.openTruncate path ∈ (save_attachments dir atts).1 →
    ∃ att ∈ atts, path = pyJoin dir att.name := by
  intro atts
  induction atts with
  | nil => intro dir path hmem; simp [save_attachments] at hmem
  | cons att rest ih =>
    intro dir path hmem
    by_cases hc : ("data").data <+: schemeOf att.url
    · simp only [save_attachments, if_pos hc] at hmem
      rcases hs : splitOnceChar ',' att.url with _ | pr
      · rw [hs] at hmem; simp at hmem
      · rw [hs] at hmem
        simp only [List.mem_singleton] at hmem
        refine ⟨att, List.mem_cons_self _ _, ?_⟩
        simp only [Effect.openTruncate.injEq] at hmem
        exact hmem
    · simp only [save_attachments, if_neg hc] at hmem
      obtain ⟨a, ha, hp⟩ := ih dir path hmem
      exact ⟨a, List.mem_cons_of_mem _ ha, hp⟩

/-- C10: every destination file the materializer opens for writing is the
unsanitized `os.path.join` of the staging directory and the
caller-supplied name, and on the concrete name `../../etc/evil` the
opened (created/truncated) path normalizes to `/etc/evil`, outside the
staging directory `/tmp/demo`. -/
theorem unsanitized_join_traversal :
    (∀ (dir : List Char) (atts : List Attachment) (path : List Char),
        Effect.openTruncate path ∈ (save_attachments dir atts).1 →
        ∃ att ∈ atts, path = pyJoin dir att.name) ∧
    (save_attachments ("/tmp/demo").data
        [⟨("../../etc/evil").data, ("data:;base64,SA==").data⟩]).1 =
      [Effect.openTruncate (("/tmp/demo/../../etc/evil").data)] ∧
    posixNormAbs (("/tmp/demo/../../etc/evil").data) = ("/etc/evil").data ∧
    ¬ (("/tmp/demo/").data <+: ("/etc/evil").data) := by
  refine ⟨fun dir atts path hm => save_attachments_open_path atts dir path hm,
    by decide, by decide, by decide⟩

/-- Witness for `unsanitized_join_traversal`: its universally quantified
part applied to the concrete traversal target. -/
theorem unsanitized_join_traversal_witness :
    ∃ att ∈ [(⟨("../../etc/evil").data, ("data:;base64,SA==").data⟩ : Attachment)],
      ("/tmp/demo/../../etc/evil").data = pyJoin ("/tmp/demo").data att.name :=
  (unsanitized_join_traversal).1 ("/tmp/demo").data _ _ (by decide)

/-- Every element of the poll loop's trace is a probe of the polled URL
or a 3-unit sleep. -/
lemma pollLive_shape (status : Nat → Nat) (url : List Char) :
    ∀ (fuel i : Nat) (e : Effect), e ∈ pollLive status url fuel i →
    e = Effect.probe url ∨ e = Effect.sleep 3 := by
  intro fuel
  induction fuel with
  | zero => intro i e he; simp [pollLive] at he
  | succ n ih =>
    intro i e he
    rw [pollLive] at he
    by_cases h : status i = 200
    · rw [if_pos h] at he
      simp at he
      exact Or.inl he
    · rw [if_neg h] at he
      simp only [List.mem_cons] at he
      rcases he with rfl | rfl | he
      · exact Or.inl rfl
      · exact Or.inr rfl
      · exact ih (i + 1) e he

/-- The poll loop makes at most `fuel` probes. -/
lemma pollLive_probes_le (status : Nat → Nat) (url : List Char) :
    ∀ (fuel i : Nat), (pollLive status url fuel i).countP isProbe ≤ fuel := by
  intro fuel
  induction fuel with
  | zero => intro i; simp [pollLive]
  | succ n ih =>
    intro i
    rw [pollLive]
    by_cases h : status i = 200
    · rw [if_pos h]
      simp [List.countP_cons, isProbe]
    · rw [if_neg h]
      have := ih (i + 1)
      simp only [List.countP_cons, isProbe]
      simp
      omega

/-- If attempt `k` (zero-based, inside the budget) is the first success,
the poll loop makes exactly `k + 1` probes. -/
lemma pollLive_early (status : Nat → Nat) (url : List Char) :
    ∀ (fuel k i : Nat), k < fuel → (∀ j, j < k → status (i + j) ≠ 200) →
    status (i + k) = 200 →
    (pollLive status url fuel i).countP isProbe = k + 1 := by
  intro fuel
  induction fuel with
  | zero => intro k i hk; omega
  | succ n ih =>
    intro k i hk hfail hsucc
    rw [pollLive]
    cases k with
    | zero =>
      rw [if_pos (by simpa using hsucc)]
      simp [List.countP_cons, isProbe]
    | succ m =>
      have h₀ : ¬ status i = 200 := by
        have := hfail 0 (Nat.succ_pos m)
        simpa using this
      rw [if_neg h₀]
      have hshift : i + (m + 1) = (i + 1) + m := by omega
      rw [hshift] at hsucc
      have hrec := ih m (i + 1) (by omega)
        (fun j hj => by
          have hh := hfail (j + 1) (by omega)
          have : i + (j + 1) = (i + 1) + j := by omega
          rwa [this] at hh)
        hsucc
      simp only [List.countP_cons, isProbe]
      simp [hrec]

/-- The attachment materializer never emits a repository-creation call. -/
lemma save_attachments_createCount (dir : List Char) :
    ∀ atts : List Attachment, ((save_attachments dir atts).1).countP isRepoCreate = 0 := by
  intro atts
  induction atts with
  | nil => simp [save_attachments]
  | cons att rest ih =>
    by_cases hc : ("data").data <+: schemeOf att.url
    · simp only [save_attachments, if_pos hc]
      rcases hs : splitOnceChar ',' att.url with _ | pr
      · simp
      · simp [List.countP_cons, isRepoCreate]
    · simp [save_attachments, if_neg hc, ih]

/-- The Pages activation never emits a repository-creation call. -/
lemma enable_pages_createCount (cfg : Config) (env : Env) (name : List Char) :
    ((enable_pages cfg env name).1).countP isRepoCreate = 0 := by
  unfold enable_pages
  split <;> simp [isRepoCreate]

/-- The poll loop never emits a repository-creation call. -/
lemma pollLive_createCount (status : Nat → Nat) (url : List Char) (fuel i : Nat) :
    ((pollLive status url fuel i).countP isRepoCreate) = 0 := by
  rw [List.countP_eq_zero]
  intro e he
  rcases pollLive_shape status url fuel i e he with rfl | rfl <;> simp [isRepoCreate]

/-- The attachments step of the publisher contributes no creation call. -/
lemma createCount_aux (cfg : Config) (task : List Char)
    (atts : List Attachment) (e₃ : List Effect) (r₃ : Except Unit Unit)
    (heq : (if atts ≠ [] then save_attachments (pyJoin cfg.tmpdir task) atts
        else ([], Except.ok ())) = (e₃, r₃)) :
    e₃.countP isRepoCreate = 0 := by
  by_cases hatts : atts = []
  · subst hatts
    rw [if_neg (fun hh => hh rfl)] at heq
    cases heq
    simp
  · rw [if_pos hatts] at heq
    have hfst := congrArg Prod.fst heq
    simp only [] at hfst
    rw [← hfst]
    exact save_attachments_createCount _ atts

/-- All repository-creation calls of the publisher come from the
existence-check step. -/
lemma create_or_update_createCount (cfg : Config) (env : Env) (task html : List Char)
    (round : Nat) (atts : List Attachment) :
    ((create_or_update_repo cfg env task html round atts).1).countP isRepoCreate =
      ((ensure_repo_exists cfg env task).1).countP isRepoCreate := by
  rcases h₁ : ensure_repo_exists cfg env task with ⟨e₁, r₁⟩
  simp only [create_or_update_repo]
  rw [h₁]
  cases r₁ with
  | error err => rfl
  | ok u =>
    simp only []
    split
    next e₃ err heq =>
      have he₃ := createCount_aux cfg task atts e₃ (Except.error err) heq
      simp [List.countP_append, List.countP_cons, isRepoCreate, he₃]
    next e₃ u₃ heq =>
      have he₃ := createCount_aux cfg task atts e₃ (Except.ok u₃) heq
      split
      next e₈ err heq₈ =>
        have he₈ : e₈.countP isRepoCreate = 0 := by
          have hfst := congrArg Prod.fst heq₈
          simp only [] at hfst
          rw [← hfst]
          exact enable_pages_createCount cfg env task
        simp only [List.countP_append, he₃, he₈]
        split_ifs <;>
          simp [List.countP_cons, List.countP_append, isRepoCreate, he₃, he₈]
      next e₈ u₈ heq₈ =>
        have he₈ : e₈.countP isRepoCreate = 0 := by
          have hfst := congrArg Prod.fst heq₈
          simp only [] at hfst
          rw [← hfst]
          exact enable_pages_createCount cfg env task
        simp only [List.countP_append, he₃, he₈, pollLive_createCount]
        split_ifs <;>
          simp [List.countP_cons, List.countP_append, isRepoCreate, he₃, he₈,
            pollLive_createCount]

/-- The publisher's trace extends the existence-check's trace. -/
lemma create_or_update_decomp (cfg : Config) (env : Env) (task html : List Char)
    (round : Nat) (atts : List Attachment) :
    ∃ mid, (create_or_update_repo cfg env task html round atts).1 =
      (ensure_repo_exists cfg env task).1 ++ mid := by
  rcases h₁ : ensure_repo_exists cfg env task with ⟨e₁, r₁⟩
  simp only [create_or_update_repo]
  rw [h₁]
  cases r₁ with
  | error err => exact ⟨[], by simp⟩
  | ok u =>
    simp only []
    split
    next e₃ err heq => exact ⟨_, by simp [List.append_assoc]; rfl⟩
    next e₃ u₃ heq =>
      split
      next e₈ err heq₈ => exact ⟨_, by simp [List.append_assoc]; rfl⟩
      next e₈ u₈ heq₈ => exact ⟨_, by simp [List.append_assoc]; rfl⟩

/-- C2: on a 404 existence check the publisher makes exactly one creation
call, and every trace prefix containing a push already contains that
creation call (the creation precedes the first push); on a non-error
existence check no creation call is made; on any other 4xx/5xx existence
status the request fails with only the existence check performed. -/
theorem repo_creation_policy (cfg : Config) (env : Env) (task html : List Char)
    (round : Nat) (atts : List Attachment) :
    (env.repoGetStatus = 404 →
      ((create_or_update_repo cfg env task html round atts).1.countP isRepoCreate = 1 ∧
       ∀ n, Effect.gitPushForce (("main").data) ∈
           ((create_or_update_repo cfg env task html round atts).1.take n) →
         ∃ e ∈ (create_or_update_repo cfg env task html round atts).1.take n,
           isRepoCreate e = true)) ∧
    (env.repoGetStatus ≠ 404 → env.repoGetStatus < 400 →
      (create_or_update_repo cfg env task html round atts).1.countP isRepoCreate = 0) ∧
    (env.repoGetStatus ≠ 404 → 400 ≤ env.repoGetStatus → env.repoGetStatus < 600 →
      create_or_update_repo cfg env task html round atts =
        ([Effect.repoExistsGet (apiRepoGetUrl cfg task)], Except.error ())) := by
  refine ⟨?_, ?_, ?_⟩
  · intro h404
    have hens : ensure_repo_exists cfg env task =
        ([Effect.repoExistsGet (apiRepoGetUrl cfg task), Effect.repoCreatePost task],
         raiseForStatus env.repoCreateStatus) := by
      simp [ensure_repo_exists, h404]
    constructor
    · rw [create_or_update_createCount, hens]
      simp [List.countP_cons, isRepoCreate]
    · obtain ⟨mid, hmid⟩ := create_or_update_decomp cfg env task html round atts
      rw [hens] at hmid
      intro n hn
      rw [hmid] at hn ⊢
      cases n with
      | zero => simp at hn
      | succ n₁ =>
        cases n₁ with
        | zero => simp [List.take] at hn
        | succ k =>
          refine ⟨Effect.repoCreatePost task, ?_, rfl⟩
          simp [List.take_succ_cons]
  · intro hne h400
    have hens : ensure_repo_exists cfg env task =
        ([Effect.repoExistsGet (apiRepoGetUrl cfg task)], Except.ok ()) := by
      simp [ensure_repo_exists, hne, show ¬ 400 ≤ env.repoGetStatus from by omega]
    rw [create_or_update_createCount, hens]
    simp [List.countP_cons, isRepoCreate]
  · intro hne h₄ h₆
    have hens : ensure_repo_exists cfg env task =
        ([Effect.repoExistsGet (apiRepoGetUrl cfg task)], Except.error ()) := by
      simp [ensure_repo_exists, hne, h₄, raiseForStatus, h₆]
    simp only [create_or_update_repo]
    rw [hens]

/-- Witness for `repo_creation_policy` at concrete 404, 200 and 500
existence-check statuses. -/
theorem repo_creation_policy_witness :
    ((create_or_update_repo cfgW { envW with repoGetStatus := 404 } ("demo-42").data
        ("<p>hi</p>").data 1 []).1.countP isRepoCreate = 1) ∧
    ((create_or_update_repo cfgW envW ("demo-42").data ("<p>hi</p>").data 1 []).1.countP
        isRepoCreate = 0) ∧
    (create_or_update_repo cfgW { envW with repoGetStatus := 500 } ("demo-42").data
        ("<p>hi</p>").data 1 [] =
      ([Effect.repoExistsGet (apiRepoGetUrl cfgW ("demo-42").data)], Except.error ())) :=
  ⟨((repo_creation_policy cfgW { envW with repoGetStatus := 404 } ("demo-42").data
      ("<p>hi</p>").data 1 []).1 rfl).1,
   (repo_creation_policy cfgW envW ("demo-42").data ("<p>hi</p>").data 1 []).2.1
      (by decide) (by decide),
   (repo_creation_policy cfgW { envW with repoGetStatus := 500 } ("demo-42").data
      ("<p>hi</p>").data 1 []).2.2 (by decide) (by decide) (by decide)⟩

/-- C8: the liveness poller makes at most 20 probes; a first success at
attempt `k` stops it after exactly `k + 1` probes; every sleep between
probes is exactly 3 units; and even when every probe fails the publisher
still succeeds and reports the same polled URL (exhaustion is not
fatal). -/
theorem liveness_poll_properties (cfg : Config) (env : Env) (task html : List Char)
    (round : Nat) :
    ((pollLive env.liveStatus (liveUrlOf cfg task) 20 0).countP isProbe ≤ 20) ∧
    (∀ k, k < 20 → (∀ j, j < k → env.liveStatus j ≠ 200) → env.liveStatus k = 200 →
      (pollLive env.liveStatus (liveUrlOf cfg task) 20 0).countP isProbe = k + 1) ∧
    (∀ n, Effect.sleep n ∈ pollLive env.liveStatus (liveUrlOf cfg task) 20 0 → n = 3) ∧
    ((∀ i, env.liveStatus i ≠ 200) → env.repoGetStatus = 200 → env.pagesPostStatus = 201 →
      (create_or_update_repo cfg env task html round []).2 =
        Except.ok (repoUrlOf cfg task, liveUrlOf cfg task, env.commitSha)) := by
  refine ⟨pollLive_probes_le _ _ 20 0, ?_, ?_, ?_⟩
  · intro k hk hf hs
    refine pollLive_early _ _ 20 k 0 hk (fun j hj => ?_) ?_
    · simpa using hf j hj
    · simpa using hs
  · intro n hn
    rcases pollLive_shape _ _ 20 0 _ hn with h | h
    · exact absurd h (by simp)
    · injection h
  · intro hfail h200 hpages
    simp [create_or_update_repo, ensure_repo_exists, enable_pages, h200, hpages]

/-- Witness for `liveness_poll_properties`: immediate success stops at
one probe, and all-404 probes still leave the publisher successful. -/
theorem liveness_poll_properties_witness :
    ((pollLive envW.liveStatus (liveUrlOf cfgW ("demo-42").data) 20 0).countP isProbe ≤ 20) ∧
    ((pollLive envW.liveStatus (liveUrlOf cfgW ("demo-42").data) 20 0).countP isProbe = 1) ∧
    ((create_or_update_repo cfgW { envW with liveStatus := fun _ => 404 } ("demo-42").data
        ("<p>hi</p>").data 1 []).2 =
      Except.ok (repoUrlOf cfgW ("demo-42").data, liveUrlOf cfgW ("demo-42").data,
        envW.commitSha)) :=
  ⟨(liveness_poll_properties cfgW envW ("demo-42").data ("<p>hi</p>").data 1).1,
   (liveness_poll_properties cfgW envW ("demo-42").data ("<p>hi</p>").data 1).2.1 0
      (by decide) (fun j hj => absurd hj (Nat.not_lt_zero j)) (by decide),
   (liveness_poll_properties cfgW { envW with liveStatus := fun _ => 404 } ("demo-42").data
      ("<p>hi</p>").data 1).2.2.2 (fun i h => by simp at h) (by decide) (by decide)⟩

/-- A split never produces the empty list of pieces. -/
lemma splitOnChar_ne_nil (sep : Char) : ∀ s : List Char, splitOnChar sep s ≠ [] := by
  intro s
  cases s with
  | nil => simp [splitOnChar]
  | cons c rest =>
    rw [splitOnChar]
    by_cases h : c = sep
    · rw [if_pos h]; simp
    · rw [if_neg h]
      rcases hs : splitOnChar sep rest with _ | ⟨l, ls⟩ <;> simp

/-- No piece of a split contains the separator. -/
lemma splitOnChar_not_mem (sep : Char) : ∀ (s : List Char) (l : List Char),
    l ∈ splitOnChar sep s → sep ∉ l := by
  intro s
  induction s with
  | nil =>
    intro l hl
    simp [splitOnChar] at hl
    simp [hl]
  | cons c rest ih =>
    intro l hl
    rw [splitOnChar] at hl
    by_cases h : c = sep
    · rw [if_pos h] at hl
      simp only [List.mem_cons] at hl
      rcases hl with rfl | hl
      · simp
      · exact ih l hl
    · rw [if_neg h] at hl
      rcases hs : splitOnChar sep rest with _ | ⟨m, ls⟩
      · exact absurd hs (splitOnChar_ne_nil sep rest)
      · rw [hs] at hl
        simp only [List.mem_cons] at hl
        rcases hl with rfl | hl
        · intro hmem
          simp only [List.mem_cons] at hmem
          rcases hmem with rfl | hmem
          · exact h rfl
          · exact ih m (by rw [hs]; exact List.mem_cons_self _ _) hmem
        · exact ih l (by rw [hs]; exact List.mem_cons_of_mem _ hl)

/-- Joining at least two lines starts with the first line and a newline. -/
lemma joinLines_cons₂ (a b : List Char) (t : List (List Char)) :
    joinLines (a :: b :: t) = a ++ '\n' :: joinLines (b :: t) := by
  simp [joinLines, List.intercalate, List.intersperse]

/-- Joining a single line is that line. -/
lemma joinLines_single (a : List Char) : joinLines [a] = a := by
  simp [joinLines, List.intercalate, List.intersperse]

/-- A head character distributes over joining. -/
lemma joinLines_cons_char (c : Char) (m : List Char) (ls : List (List Char)) :
    joinLines ((c :: m) :: ls) = c :: joinLines (m :: ls) := by
  cases ls with
  | nil => simp [joinLines_single]
  | cons x t => simp [joinLines_cons₂]

/-- `"\n".join(s.split("\n")) = s`. -/
lemma join_split : ∀ s : List Char, joinLines (splitLines s) = s := by
  intro s
  induction s with
  | nil => rfl
  | cons c rest ih =>
    rw [splitLines, splitOnChar]
    by_cases h : c = '\n'
    · rw [if_pos h]
      rcases hs : splitOnChar '\n' rest with _ | ⟨m, ls⟩
      · exact absurd hs (splitOnChar_ne_nil _ _)
      · rw [joinLines_cons₂, h, ← hs]
        rw [show splitOnChar '\n' rest = splitLines rest from rfl, ih]
        rfl
    · rw [if_neg h]
      rcases hs : splitOnChar '\n' rest with _ | ⟨m, ls⟩
      · exact absurd hs (splitOnChar_ne_nil _ _)
      · rw [joinLines_cons_char, ← hs]
        rw [show splitOnChar '\n' rest = splitLines rest from rfl, ih]

/-- Splitting a separator-free string yields that single piece. -/
lemma splitOnChar_no_sep (sep : Char) : ∀ l : List Char, sep ∉ l → splitOnChar sep l = [l] := by
  intro l
  induction l with
  | nil => intro h; rfl
  | cons c t ih =>
    intro h
    have hc : ¬ c = sep := fun e => h (by rw [e]; exact List.mem_cons_self _ _)
    rw [splitOnChar, if_neg hc, ih (fun hm => h (List.mem_cons_of_mem _ hm))]

/-- Splitting after a separator-free piece peels that piece off. -/
lemma splitOnChar_sep_append (sep : Char) : ∀ (l r : List Char), sep ∉ l →
    splitOnChar sep (l ++ sep :: r) = l :: splitOnChar sep r := by
  intro l
  induction l with
  | nil => intro r h; rw [List.nil_append, splitOnChar, if_pos rfl]
  | cons c t ih =>
    intro r h
    have hc : ¬ c = sep := fun e => h (by rw [e]; exact List.mem_cons_self _ _)
    rw [List.cons_append, splitOnChar, if_neg hc,
      ih r (fun hm => h (List.mem_cons_of_mem _ hm))]

/-- `("\n".join(ls)).split("\n") = ls` for nonempty, newline-free pieces. -/
lemma split_join : ∀ ls : List (List Char), ls ≠ [] → (∀ l ∈ ls, '\n' ∉ l) →
    splitLines (joinLines ls) = ls := by
  intro ls
  induction ls with
  | nil => intro h; exact absurd rfl h
  | cons l rest ih =>
    intro _ hnl
    cases rest with
    | nil =>
      rw [joinLines_single]
      exact splitOnChar_no_sep '\n' l (hnl l (List.mem_cons_self _ _))
    | cons m t =>
      rw [joinLines_cons₂]
      rw [show splitLines (l ++ '\n' :: joinLines (m :: t)) =
          l :: splitLines (joinLines (m :: t)) from
        splitOnChar_sep_append '\n' l _ (hnl l (List.mem_cons_self _ _))]
      rw [ih (by simp) (fun x hx => hnl x (List.mem_cons_of_mem _ hx))]

/-- A pattern that avoids a character and sits at the start of
`u ++ c :: v` sits at the start of `u`. -/
lemma pref_stop : ∀ (p u v : List Char) (c : Char), p <+: u ++ c :: v → c ∉ p → p <+: u := by
  intro p
  induction p with
  | nil => intro u v c h hc; exact List.nil_prefix
  | cons x p' ih =>
    intro u v c h hc
    cases u with
    | nil =>
      rw [List.nil_append, List.cons_prefix_cons] at h
      exact absurd h.1 (fun e => hc (by rw [e]; exact List.mem_cons_self _ _))
    | cons y u' =>
      rw [List.cons_append, List.cons_prefix_cons] at h
      rw [List.cons_prefix_cons]
      exact ⟨h.1, ih u' v c h.2 (fun hm => hc (List.mem_cons_of_mem _ hm))⟩

/-- A pattern that avoids a character and sits at the end of
`a ++ c :: b` sits at the end of `b`. -/
lemma suff_stop (p a b : List Char) (c : Char) (h : p <:+ a ++ c :: b) (hc : c ∉ p) :
    p <:+ b := by
  have h' : p.reverse <+: (a ++ c :: b).reverse := ( List.reverse_prefix).mpr h
  rw [List.reverse_append, List.reverse_cons, List.append_assoc, List.singleton_append] at h'
  have hp := pref_stop p.reverse b.reverse a.reverse c h'
    (fun hm => hc (List.mem_reverse.mp hm))
  exact ( List.reverse_prefix).mp hp

/-- An occurrence of a pattern avoiding `c` inside `a ++ c :: b` lies
wholly inside `a` or wholly inside `b`. -/
lemma infix_split (p : List Char) : ∀ (a b : List Char) (c : Char),
    p <:+: a ++ c :: b → c ∉ p → p <:+: a ∨ p <:+: b := by
  intro a
  induction a with
  | nil =>
    intro b c h hc
    rw [List.nil_append, List.infix_cons_iff] at h
    rcases h with h | h
    · cases p with
      | nil => exact Or.inl ⟨[], [], rfl⟩
      | cons x p' =>
        rw [List.cons_prefix_cons] at h
        exact absurd h.1 (fun e => hc (by rw [e]; exact List.mem_cons_self _ _))
    · exact Or.inr h
  | cons y a' ih =>
    intro b c h hc
    rw [List.cons_append, List.infix_cons_iff] at h
    rcases h with h | h
    · exact Or.inl (List.IsPrefix.isInfix
        (pref_stop p (y :: a') b c (by rwa [List.cons_append]) hc))
    · rcases ih b c h hc with h' | h'
      · exact Or.inl (List.infix_cons h')
      · exact Or.inr h'

/-- A newline-free pattern occurring in a join occurs in one of the lines. -/
lemma infix_join (p : List Char) (hnl : '\n' ∉ p) (hne : p ≠ []) :
    ∀ ls : List (List Char), p <:+: joinLines ls → ∃ l ∈ ls, p <:+: l := by
  intro ls
  induction ls with
  | nil =>
    intro h
    rw [show joinLines [] = [] from rfl] at h
    exact absurd (List.infix_nil.mp h) hne
  | cons l rest ih =>
    intro h
    cases rest with
    | nil =>
      rw [joinLines_single] at h
      exact ⟨l, List.mem_cons_self _ _, h⟩
    | cons m t =>
      rw [joinLines_cons₂] at h
      rcases infix_split p l (joinLines (m :: t)) '\n' h hnl with h' | h'
      · exact ⟨l, List.mem_cons_self _ _, h'⟩
      · obtain ⟨x, hx, hinf⟩ := ih h'
        exact ⟨x, List.mem_cons_of_mem _ hx, hinf⟩

/-- The head surviving `dropWhile` fails the dropped predicate. -/
lemma head_dropWhile (q : Char → Bool) : ∀ (l : List Char) (c : Char),
    (l.dropWhile q).head? = some c → q c = false := by
  intro l
  induction l with
  | nil => intro c hc; simp [List.dropWhile] at hc
  | cons a t ih =>
    intro c hc
    rw [List.dropWhile_cons] at hc
    by_cases h : q a = true
    · rw [if_pos h] at hc; exact ih c hc
    · rw [if_neg h] at hc
      simp at hc
      rw [← hc]
      simp only [Bool.not_eq_true] at h
      exact h

/-- A nonempty initial segment shares its head with the whole list. -/
lemma head_of_pref (p t : List Char) (h : p <+: t) (c : Char) (hc : p.head? = some c) :
    t.head? = some c := by
  obtain ⟨r, rfl⟩ := h
  cases p with
  | nil => simp at hc
  | cons x p' => simpa using hc

/-- An end segment of a reversed list reverses to an initial segment. -/
lemma rev_pref_of_suff (u t : List Char) (h : u <:+ t.reverse) : u.reverse <+: t := by
  have h' := ( List.reverse_prefix).mpr h
  rwa [List.reverse_reverse] at h'

/-- Stripping yields an initial segment of the left-stripped string. -/
lemma pyStrip_pref (s : List Char) : pyStrip s <+: s.dropWhile isPySpace :=
  rev_pref_of_suff _ _ (List.dropWhile_suffix _)

/-- The stripped string occurs inside the original. -/
lemma pyStrip_within (s : List Char) : pyStrip s <:+: s :=
  (List.IsPrefix.isInfix (pyStrip_pref s)).trans
    (List.IsSuffix.isInfix (List.dropWhile_suffix _))

/-- A stripped string never starts with whitespace. -/
lemma pyStrip_head (s : List Char) (c : Char) (hc : (pyStrip s).head? = some c) :
    isPySpace c = false :=
  head_dropWhile isPySpace s c (head_of_pref _ _ (pyStrip_pref s) c hc)

/-- A stripped string never ends with whitespace. -/
lemma pyStrip_last (s : List Char) (c : Char) (hc : (pyStrip s).getLast? = some c) :
    isPySpace c = false := by
  unfold pyStrip at hc
  rw [List.getLast?_reverse] at hc
  exact head_dropWhile isPySpace _ c hc

/-- C3 counterexample: the response consisting of three fence lines both
begins and ends with a fence marker, yet the Content Generator's output
for it still begins and ends with a fence marker (dropping the first and
last lines leaves the middle fence line). -/
theorem fenced_strip_cex :
    fence <+: ("```\n```\n```").data ∧ fence <:+ ("```\n```\n```").data ∧
    fence <+: stripFenceMarkers (("```\n```\n```").data) ∧
    fence <:+ stripFenceMarkers (("```\n```\n```").data) := by decide

/-- C3 amended: for every fenced response none of whose interior lines
contains a fence marker, the output neither starts nor ends with a fence
marker and carries no surrounding whitespace (its first and last
characters, when present, are not whitespace). -/
theorem fenced_strip_amended (code : List Char)
    (h₁ : fence <+: code) (h₂ : fence <:+ code)
    (h₃ : ∀ l ∈ interiorLines code, ¬ fence <:+: l) :
    (¬ fence <+: stripFenceMarkers code) ∧ (¬ fence <:+ stripFenceMarkers code) ∧
    (∀ c, (stripFenceMarkers code).head? = some c → isPySpace c = false) ∧
    (∀ c, (stripFenceMarkers code).getLast? = some c → isPySpace c = false) := by
  have hnl : '\n' ∉ fence := by decide
  have hfne : fence ≠ [] := by decide
  rcases hsl : splitLines code with _ | ⟨l₀, rest⟩
  · exact absurd hsl (splitOnChar_ne_nil _ _)
  · simp only [stripFenceMarkers, if_pos h₁]
    rw [hsl]
    simp only [List.tail_cons]
    cases rest with
    | nil =>
      rw [show joinLines [] = [] from rfl]
      rw [if_neg (show ¬ fence <:+ ([] : List Char) from
        fun hs => hfne (List.suffix_nil.mp hs))]
      rw [show pyStrip [] = [] from rfl]
      refine ⟨fun hp => hfne (List.prefix_nil.mp hp),
        fun hp => hfne (List.suffix_nil.mp hp), ?_, ?_⟩
      · intro c hc; simp at hc
      · intro c hc; simp at hc
    | cons m t =>
      have hnl_all : ∀ l ∈ splitLines code, '\n' ∉ l :=
        fun l hl => splitOnChar_not_mem '\n' code l hl
      have hcode : code = l₀ ++ '\n' :: joinLines (m :: t) := by
        conv_lhs => rw [← join_split code]
        rw [hsl, joinLines_cons₂]
      have h₂' : fence <:+ joinLines (m :: t) :=
        suff_stop fence l₀ (joinLines (m :: t)) '\n' (hcode ▸ h₂) hnl
      rw [if_pos h₂']
      rw [show splitLines (joinLines (m :: t)) = m :: t from
        split_join (m :: t) (by simp)
          (fun x hx => hnl_all x (by rw [hsl]; exact List.mem_cons_of_mem _ hx))]
      have hint : interiorLines code = (m :: t).dropLast := by
        rw [interiorLines, hsl]
        rfl
      refine ⟨?_, ?_, fun c hc => pyStrip_head _ c hc, fun c hc => pyStrip_last _ c hc⟩
      · intro hp
        have hin : fence <:+: joinLines ((m :: t).dropLast) :=
          (List.IsPrefix.isInfix hp).trans (pyStrip_within _)
        obtain ⟨l, hl, hinf⟩ := infix_join fence hnl hfne _ hin
        exact h₃ l (by rw [hint]; exact hl) hinf
      · intro hp
        have hin : fence <:+: joinLines ((m :: t).dropLast) :=
          (List.IsSuffix.isInfix hp).trans (pyStrip_within _)
        obtain ⟨l, hl, hinf⟩ := infix_join fence hnl hfne _ hin
        exact h₃ l (by rw [hint]; exact hl) hinf

/-- Witness for `fenced_strip_amended` at a concrete fenced response. -/
theorem fenced_strip_amended_witness :
    (¬ fence <+: stripFenceMarkers (("```html\n<p>hi</p>\n```").data)) ∧
    (¬ fence <:+ stripFenceMarkers (("```html\n<p>hi</p>\n```").data)) ∧
    (∀ c, (stripFenceMarkers (("```html\n<p>hi</p>\n```").data)).head? = some c →
      isPySpace c = false) ∧
    (∀ c, (stripFenceMarkers (("```html\n<p>hi</p>\n```").data)).getLast? = some c →
      isPySpace c = false) :=
  fenced_strip_amended (("```html\n<p>hi</p>\n```").data) (by decide) (by decide)
    (by decide)

end AppModel

